import Mathlib

/-!
  # Conditional-UTXO transaction core (coinutxotx.cpp), shallowly embedded

  A shallow embedding of `src/tx/coinutxotx.cpp`: the condition evaluator
  `CheckUtxoCondition`, the prior-output resolver `GetUtxoTxFromChain`, the
  admission check `CCoinUtxoTx::CheckTx` and the ledger mutation
  `CCoinUtxoTx::ExecuteTx`, together with theorems settling the frozen
  claims about them.

  Modelling conventions:
  * Machine integers are `Nat`; `uint64_t` arithmetic is taken `% 2 ^ 64`
    exactly where the source computes in `uint64_t`, and the conversion of
    a `uint64_t` difference into the narrow `int diff` is `toInt32`.
  * Identities (`CUserID`) and 256-bit hashes (`uint256`) are opaque `Nat`
    values; the default-constructed/empty value is `0`.
  * Locking conditions are a closed tagged union matching the five
    `UtxoCondType` tags plus a constructor for any other serialized tag
    (the `default:` branch of the evaluator's switch).
  * Collaborators the source calls but whose bodies are outside this file's
    source (account cache, UTXO cache, receipt cache, fee schedule, the
    `IMPLEMENT_*` validation macros, signature check) are parameters of
    `ChainEnv` / fields of `LedgerState`, with the success/failure
    semantics the spec's interface section gives them.
  * The source passes the resolver's `shared_ptr` out-parameter by value;
    we model the out-parameter as receiving the deserialized transaction
    whenever the index lookup succeeds, which is the observable contract
    every call site relies on.  The resolver's control flow (including its
    returning `true` when the index lookup finds nothing) is kept exactly.
  * `state.DoS(..., reason)` records `reason` and returns `false`; a
    function returning it is modelled as producing a `dos reason` result.
    `CheckUtxoCondition` has control paths that reach the end of the
    non-void function without any `return`: those are the `fallOff` result
    (no rejection recorded, C++ return value undefined).
-/

/-! ## Data model -/

/-- An unlocking condition supplied on an input (`input.conds`).  The
evaluator's P2PH loop only distinguishes the `P2PH` tag (whose payload is
the plaintext password) and skips every other tag with `continue`. -/
inductive UnlockCond where
  | P2PH (password : String)
  | otherTag (tag : Nat)
deriving DecidableEq

/-- A locking condition attached to an output, the closed tagged union the
evaluator's switch dispatches on: `P2SA` (single address, owning uid),
`P2MA` (multi-sign address, owning uid), `P2PH` (password hash lock),
`CLAIM_LOCK` and `RECLAIM_LOCK` (minimum heights), plus any other
serialized tag value, which the switch's `default:` branch rejects. -/
inductive CUtxoCond where
  | P2SA (uid : Nat)
  | P2MA (uid : Nat)
  | P2PH (password_hash : Nat)
  | CLAIM_LOCK (height : Nat)
  | RECLAIM_LOCK (height : Nat)
  | otherTag (tag : Nat)
deriving DecidableEq

/-- An input of the transaction: the reference `(prev_utxo_txid,
prev_utxo_out_index)` to a prior output, and the supplied unlocking
conditions. -/
structure CUtxoInput where
  prev_utxo_txid : Nat
  prev_utxo_out_index : Nat
  conds : List UnlockCond
deriving DecidableEq

/-- An output of the transaction: a coin amount and its locking
conditions. -/
structure CUtxoOutput where
  coin_amount : Nat
  conds : List CUtxoCond
deriving DecidableEq

/-- The conditional-UTXO transaction `CCoinUtxoTx`, restricted to the
fields the embedded routines read: `GetHash()` (as `txid`), `txUid`,
`llFees`, `vins`, `vouts`.  Symbols, memo, version and the validity window
are consumed only by the abstracted `IMPLEMENT_*` checks. -/
structure CCoinUtxoTx where
  txid : Nat
  txUid : Nat
  llFees : Nat
  vins : List CUtxoInput
  vouts : List CUtxoOutput
deriving DecidableEq

/-- A key of the UTXO index: `(transaction id, output index)`. -/
abbrev UtxoKey := Nat × Nat

/-- The environment of one validation/execution attempt: chain height,
the chain store and its tx-index switch, the hash function, and the
outcomes of the external collaborators the source calls (the
`IMPLEMENT_*` macro checks, `GetTxMinFee`, signature verification,
`GenerateRegID`, and the fallibility of the UTXO/account/receipt cache
writes). -/
structure ChainEnv where
  height : Nat
  isTxIndex : Bool
  chainRead : Nat → Option CCoinUtxoTx
  hashWithUid : String → Nat → Nat
  preChecksOk : Bool
  txUidIsPubKey : Bool
  pubKeyValid : Bool
  minFee : Option Nat
  sigValid : Bool
  genRegIdOk : Bool
  delUtxoOk : UtxoKey → Bool
  setUtxoOk : UtxoKey → Bool
  saveAccountOk : Bool
  setReceiptsOk : Bool

/-- The mutable ledger caches one execution touches: the UTXO index (a key
is listed iff unspent), the account cache (uid to free balance of the
transaction's coin symbol), and the receipts written (txid, sender uid,
magnitude). -/
structure LedgerState where
  utxoIndex : List UtxoKey
  accounts : Nat → Option Nat
  receipts : List (Nat × Nat × Nat)

/-- The UTXO cache delete: removes the key from the index. -/
def delKey (key : UtxoKey) (idx : List UtxoKey) : List UtxoKey :=
  idx.filter (fun k => decide (k ≠ key))

/-- The UTXO cache insert: registers the key as unspent. -/
def addKey (key : UtxoKey) (idx : List UtxoKey) : List UtxoKey :=
  key :: idx

/-! ## Prior-output resolver -/

/-- Embedding of `GetUtxoTxFromChain` (lines 12-32): first component is
the `bool` return value, second the loaded prior transaction (or `none`
when the out-parameter was never assigned).  With the tx index disabled it
returns `false` at once; with it enabled it returns `true` whether or not
`ReadTxIndex` located the transaction — when the lookup misses, the body
is skipped and the function still reports success with nothing loaded. -/
def GetUtxoTxFromChain (env : ChainEnv) (txid : Nat) : Bool × Option CCoinUtxoTx :=
  if !env.isTxIndex then (false, none)
  else match env.chainRead txid with
    | some t => (true, some t)
    | none => (true, none)

/-! ## Condition evaluator -/

/-- The outcome of one `CheckUtxoCondition` call, as observable through
the validation state: `retFalse reason` is `return state.DoS(...,
reason)` (rejection recorded, `false` returned); `fallOff` is a control
path that exits the `switch` via `break` and reaches the end of the
non-void function without any `return` statement — no rejection is
recorded, and the C++ return value is undefined. -/
inductive EvalResult where
  | retFalse (reason : String)
  | fallOff
deriving DecidableEq

/-- The P2PH input-side loop of `CheckUtxoCondition` (lines 76-93): scan
`input.conds`; on each `P2PH` entry recompute `Hash(password ‖
uid.ToString())` and return the secret-mismatch rejection if it differs
from the locking hash, otherwise record that a proof was found; after the
loop, reject with the cond-mismatch reason when no `P2PH` entry was
seen. -/
def p2phScan (hashWithUid : String → Nat → Nat) (txUid lockHash : Nat) :
    List UnlockCond → Bool → EvalResult
  | [], found => if !found then .retFalse "cond-mismatches-err" else .fallOff
  | .otherTag _ :: rest, found => p2phScan hashWithUid txUid lockHash rest found
  | .P2PH password :: rest, _ =>
      if lockHash ≠ hashWithUid password txUid then .retFalse "secret-mismatches-err"
      else p2phScan hashWithUid txUid lockHash rest true

/-- Embedding of `CheckUtxoCondition` (lines 34-142).  `isCheckInput`
selects the input-side or output-side rule; `ctxHeight` is
`context.height`; `prevUtxoTxUid` and `txUid` the prior sender and current
sender identities; `input` supplies the unlocking conditions; `cond` is
the locking condition under evaluation. -/
def CheckUtxoCondition (isCheckInput : Bool) (ctxHeight : Nat)
    (hashWithUid : String → Nat → Nat) (prevUtxoTxUid txUid : Nat)
    (input : CUtxoInput) (cond : CUtxoCond) : EvalResult :=
  match cond with
  | .P2SA uid =>
      if isCheckInput then
        if uid ≠ txUid then .retFalse "uid-mismatches-err" else .fallOff
      else
        if uid = 0 then .retFalse "uid-empty-err" else .fallOff
  | .P2MA uid =>
      if isCheckInput then
        -- TODO in the source: signatures are not verified here
        .fallOff
      else
        if uid = 0 then .retFalse "uid-empty-err" else .fallOff
  | .P2PH password_hash =>
      if isCheckInput then
        p2phScan hashWithUid txUid password_hash input.conds false
      else
        if password_hash = 0 then .retFalse "empty-hash-lock-err" else .fallOff
  | .CLAIM_LOCK height =>
      if isCheckInput then
        if ctxHeight ≤ height then .retFalse "too-early-to-claim-err" else .fallOff
      else
        if height = 0 then .retFalse "claim-lock-empty-err" else .fallOff
  | .RECLAIM_LOCK height =>
      if isCheckInput then
        if prevUtxoTxUid = txUid then
          if height = 0 ∨ ctxHeight ≤ height then .retFalse "too-early-to-claim-err"
          else .fallOff
        else .fallOff
      else
        if height = 0 then .retFalse "reclaim-lock-empty-err" else .fallOff
  | .otherTag _ => .retFalse "cond-type-err"

/-! ## Validation pipeline (CheckTx) -/

/-- The outcome of one `CCoinUtxoTx::CheckTx` call: `ok` is `return true`;
`dos reason` is `return state.DoS(..., reason)`; `preFail` is a failure of
one of the `IMPLEMENT_*` macro checks or `CheckFee` (their reason codes
live outside this source file); `sigFail` is a failure of
`IMPLEMENT_CHECK_TX_SIGNATURE`; `assertFail` is the `assert(false)` when
`GetTxMinFee` has no entry; `nullDeref` is a dereference of the prior-tx
pointer that `GetUtxoTxFromChain` left unloaded (undefined behavior in the
source). -/
inductive CheckResult where
  | ok
  | dos (reason : String)
  | preFail
  | sigFail
  | assertFail
  | nullDeref
deriving DecidableEq

/-- The per-input loop of `CheckTx` (lines 181-198): resolve the prior
transaction, reject when the resolver returns `false`, check the output
index bound, evaluate every locking condition of the referenced output in
input direction — the source computes these verdicts and discards them —
and accumulate the referenced output's amount in `uint64_t`. -/
def checkInputs (env : ChainEnv) (txUid : Nat) :
    List CUtxoInput → Nat → CheckResult ⊕ Nat
  | [], acc => .inr acc
  | input :: rest, acc =>
    match GetUtxoTxFromChain env input.prev_utxo_txid with
    | (false, _) => .inl (.dos "failed-to-load-prev-utxo-err")
    | (true, none) => .inl .nullDeref
    | (true, some prevTx) =>
      if h : prevTx.vouts.length < input.prev_utxo_out_index + 1 then
        .inl (.dos "prev-utxo-index-OOR-err")
      else
        let prevOut := prevTx.vouts.get ⟨input.prev_utxo_out_index, by omega⟩
        -- verdicts computed but discarded, exactly as in the source
        let _ := prevOut.conds.map (fun cond =>
          CheckUtxoCondition true env.height env.hashWithUid prevTx.txUid txUid input cond)
        checkInputs env txUid rest ((acc + prevOut.coin_amount) % 2 ^ 64)

/-- The per-output loop of `CheckTx` (lines 200-210): reject a zero
amount, evaluate every locking condition in output direction — verdicts
again discarded by the source — and accumulate the amount in
`uint64_t`. -/
def checkOutputs (env : ChainEnv) (txUid : Nat) :
    List CUtxoOutput → Nat → CheckResult ⊕ Nat
  | [], acc => .inr acc
  | output :: rest, acc =>
    if output.coin_amount = 0 then .inl (.dos "zero-output-amount-err")
    else
      let _ := output.conds.map (fun cond =>
        CheckUtxoCondition false env.height env.hashWithUid 0 txUid ⟨0, 0, []⟩ cond)
      checkOutputs env txUid rest ((acc + output.coin_amount) % 2 ^ 64)

/-- Embedding of `CCoinUtxoTx::CheckTx` (lines 144-222), in source order:
the `IMPLEMENT_*` preliminary checks and `CheckFee`; public-key validity;
account existence; the `> 100` size limits on `vins` and `vouts`; the
both-empty check; the fee floor `(2·|vins| + |vouts|) · minFee`; the input
loop; the output loop; balance sufficiency in `uint64_t`; the signature
check. -/
def CheckTx (env : ChainEnv) (tx : CCoinUtxoTx) (st : LedgerState) : CheckResult :=
  if !env.preChecksOk then .preFail
  else if env.txUidIsPubKey && !env.pubKeyValid then .dos "bad-publickey"
  else match st.accounts tx.txUid with
  | none => .dos "bad-getaccount"
  | some accountBalance =>
    if tx.vins.length > 100 then .dos "vins-size-too-large"
    else if tx.vouts.length > 100 then .dos "vouts-size-too-large"
    else if tx.vins.length = 0 ∧ tx.vouts.length = 0 then .dos "utxo-empty-err"
    else match env.minFee with
    | none => .assertFail
    | some minFee =>
      -- minerMinFees = (2 * vins.size() + vouts.size()) * minFee, in uint64_t
      if tx.llFees % 2 ^ 64 < ((2 * tx.vins.length + tx.vouts.length) * minFee) % 2 ^ 64 then
        .dos "bad-tx-fee-toosmall"
      else match checkInputs env tx.txUid tx.vins 0 with
      | .inl r => r
      | .inr totalInAmount =>
        match checkOutputs env tx.txUid tx.vouts 0 with
        | .inl r => r
        | .inr totalOutAmount =>
          if (accountBalance + totalInAmount) % 2 ^ 64
              < (totalOutAmount + tx.llFees % 2 ^ 64) % 2 ^ 64 then
            .dos "insufficient-account-coin-amount"
          else if !env.sigValid then .sigFail
          else .ok

/-! ## Execution pipeline (ExecuteTx) -/

/-- The outcome of one `CCoinUtxoTx::ExecuteTx` call: `ok` is `return
true`; `dos reason` as in `CheckResult`; `regIdFail` is the bare `return
false` when `GenerateRegID` fails; `nullDeref` and `oobAccess` are the
undefined-behavior paths (dereferencing the unloaded prior-tx pointer,
resp. indexing `vouts` out of range, which `ExecuteTx` — unlike `CheckTx`
— never guards). -/
inductive ExecResult where
  | ok
  | dos (reason : String)
  | regIdFail
  | nullDeref
  | oobAccess
deriving DecidableEq

/-- Conversion of a `uint64_t` value into the C `int` (32-bit, two's
complement) that the source narrows `diff` into. -/
def toInt32 (v : Nat) : Int :=
  let r : Nat := v % 2 ^ 32
  if r < 2 ^ 31 then (r : Int) else (r : Int) - 2 ^ 32

/-- The per-input loop of `ExecuteTx` (lines 244-260), acting on the UTXO
index: reject as a double spend when the key is not in the index; resolve
the prior transaction (rejecting when the resolver returns `false`,
dereferencing the unloaded pointer when it lied); read the referenced
output's amount (unguarded indexing); delete the key from the index.
Returns either an early result with the index as mutated so far, or the
index after all deletions together with `totalInAmount`. -/
def execInputs (env : ChainEnv) :
    List CUtxoInput → List UtxoKey → Nat → (ExecResult × List UtxoKey) ⊕ (List UtxoKey × Nat)
  | [], idx, acc => .inr (idx, acc)
  | input :: rest, idx, acc =>
    let key : UtxoKey := (input.prev_utxo_txid, input.prev_utxo_out_index)
    if key ∈ idx then
      match GetUtxoTxFromChain env input.prev_utxo_txid with
      | (false, _) => .inl (.dos "failed-to-load-prev-utxo-err", idx)
      | (true, none) => .inl (.nullDeref, idx)
      | (true, some prevTx) =>
        if h : input.prev_utxo_out_index < prevTx.vouts.length then
          let amount := (prevTx.vouts.get ⟨input.prev_utxo_out_index, h⟩).coin_amount
          if env.delUtxoOk key then
            execInputs env rest (delKey key idx) ((acc + amount) % 2 ^ 64)
          else .inl (.dos "del-prev-utxo-err", idx)
        else .inl (.oobAccess, idx)
    else .inl (.dos "double-spend-prev-utxo-err", idx)

/-- The per-output loop of `ExecuteTx` (lines 262-269): accumulate the
amount and insert `(thisTxId, i)` into the UTXO index, rejecting when the
cache write fails. -/
def execOutputs (env : ChainEnv) (txid : Nat) :
    List CUtxoOutput → Nat → List UtxoKey → Nat → (ExecResult × List UtxoKey) ⊕ (List UtxoKey × Nat)
  | [], _, idx, acc => .inr (idx, acc)
  | output :: rest, i, idx, acc =>
    let acc1 := (acc + output.coin_amount) % 2 ^ 64
    if env.setUtxoOk (txid, i) then
      execOutputs env txid rest (i + 1) (addKey (txid, i) idx) acc1
    else .inl (.dos "set-utxo-err", idx)

/-- The narrowing `int diff = totalInAmount - totalOutAmount - llFees`
(line 276): the right-hand side is computed in `uint64_t` (wrapping
subtraction) and then converted into the 32-bit signed `diff`. -/
def diffOf (tx : CCoinUtxoTx) (totalInAmount totalOutAmount : Nat) : Int :=
  toInt32 ((totalInAmount + 2 ^ 65 - totalOutAmount - tx.llFees % 2 ^ 64) % 2 ^ 64)

/-- The tail of `ExecuteTx` (lines 289-299): emplace the single receipt,
persist the updated sender account (failure reason `"bad-read-accountdb"`,
as in the source), and persist the receipts. -/
def execTail (env : ChainEnv) (tx : CCoinUtxoTx) (st1 : LedgerState)
    (newBal mag : Nat) : ExecResult × LedgerState :=
  if env.saveAccountOk then
    let st2 : LedgerState :=
      { st1 with accounts := fun u => if u = tx.txUid then some newBal else st1.accounts u }
    if env.setReceiptsOk then
      (.ok, { st2 with receipts := st2.receipts ++ [(tx.txid, tx.txUid, mag)] })
    else (.dos "set-tx-receipt-failed", st2)
  else (.dos "bad-read-accountdb", st1)

/-- The balance stage of `ExecuteTx` (lines 271-299): the balance re-check
in `uint64_t`; the narrowed `diff` (see `diffOf`); `OperateBalance` with
`SUB_FREE` of `abs(diff)` when `diff < 0` (failing when the free balance
is insufficient, per the spec's account-ledger interface) or `ADD_FREE`
when `diff > 0`; then the persistence tail. -/
def execBalanceStage (env : ChainEnv) (tx : CCoinUtxoTx) (st1 : LedgerState)
    (accountBalance totalInAmount totalOutAmount : Nat) :
    ExecResult × LedgerState :=
  if (accountBalance + totalInAmount) % 2 ^ 64
      < (totalOutAmount + tx.llFees % 2 ^ 64) % 2 ^ 64 then
    (.dos "insufficient-account-coin-amount", st1)
  else if diffOf tx totalInAmount totalOutAmount < 0 then
    if accountBalance < (diffOf tx totalInAmount totalOutAmount).natAbs then
      (.dos "insufficient-fund-utxo", st1)
    else
      execTail env tx st1 (accountBalance - (diffOf tx totalInAmount totalOutAmount).natAbs)
        (diffOf tx totalInAmount totalOutAmount).natAbs
  else if diffOf tx totalInAmount totalOutAmount > 0 then
    execTail env tx st1 (accountBalance + (diffOf tx totalInAmount totalOutAmount).natAbs)
      (diffOf tx totalInAmount totalOutAmount).natAbs
  else execTail env tx st1 accountBalance (diffOf tx totalInAmount totalOutAmount).natAbs

/-- Embedding of `CCoinUtxoTx::ExecuteTx` (lines 227-300): load the sender
account; `GenerateRegID`; the input loop (double-spend check, resolution,
amount, index delete); the output loop (amount, index insert); the balance
re-check in `uint64_t`; `int diff = totalInAmount - totalOutAmount -
llFees` — `uint64_t` arithmetic narrowed into a 32-bit `int`; the balance
mutation by `abs(diff)`; account and receipt persistence.  The returned
state is the caches as mutated up to the point of return. -/
def ExecuteTx (env : ChainEnv) (tx : CCoinUtxoTx) (st : LedgerState) :
    ExecResult × LedgerState :=
  match st.accounts tx.txUid with
  | none => (.dos "bad-read-accountdb", st)
  | some accountBalance =>
    if !env.genRegIdOk then (.regIdFail, st)
    else match execInputs env tx.vins st.utxoIndex 0 with
    | .inl (r, idx1) => (r, { st with utxoIndex := idx1 })
    | .inr (idx1, totalInAmount) =>
      match execOutputs env tx.txid tx.vouts 0 idx1 0 with
      | .inl (r, idx2) => (r, { st with utxoIndex := idx2 })
      | .inr (idx2, totalOutAmount) =>
        execBalanceStage env tx { st with utxoIndex := idx2 }
          accountBalance totalInAmount totalOutAmount

/-- Modelled from the spec: the enclosing block-application machinery
(the cache-wrapper commit/discard that surrounds every `ExecuteTx` call)
is not part of this source file.  Per §4.4/§5/§7 of the spec, a failing
execution's mutations are rolled back in full before the rejection is
surfaced: the ledger keeps its pre-execution state.  A successful
execution commits the mutated state. -/
def ApplyTx (env : ChainEnv) (tx : CCoinUtxoTx) (st : LedgerState) :
    ExecResult × LedgerState :=
  match ExecuteTx env tx st with
  | (.ok, st1) => (.ok, st1)
  | (r, _) => (r, st)

/-! ## Concrete fixtures shared by the claim theorems -/

/-- A hash function mapping everything to `0`, for fixtures in which the
hash value is irrelevant. -/
def hf0 : String → Nat → Nat := fun _ _ => 0

/-- A concrete, injectively flavored hash for the P2PH fixture. -/
def hfLen : String → Nat → Nat := fun p u => p.length + u

/-- A default-constructed input (`CUtxoInput()`), as the output-side
evaluator calls receive. -/
def inp0 : CUtxoInput := ⟨0, 0, []⟩

/-! ## Claim C7 — ClaimLock boundary -/

/-- C7: an input consuming a `CLAIM_LOCK`-locked output is accepted (no
rejection is recorded; the evaluator's accept path is its fall-through
exit) exactly when the context height is strictly greater than the lock
height, and at any height less than or equal to the lock height it is
rejected with the too-early-to-claim reason.  In particular at `height =
lockHeight` it rejects and at `height = lockHeight + 1` it accepts, all
else equal. -/
theorem C7_claimlock_boundary (ctxH lockH prevUid uid : Nat)
    (hf : String → Nat → Nat) (inp : CUtxoInput) :
    (CheckUtxoCondition true ctxH hf prevUid uid inp (.CLAIM_LOCK lockH) = .fallOff
      ↔ lockH < ctxH)
    ∧ (CheckUtxoCondition true ctxH hf prevUid uid inp (.CLAIM_LOCK lockH)
        = .retFalse "too-early-to-claim-err" ↔ ctxH ≤ lockH) := by
  unfold CheckUtxoCondition
  by_cases h : ctxH ≤ lockH <;> (simp [h]; try omega)

/-! ## Claim C8 — ReclaimLock semantics and its reason string -/

/-- C8 counterexample: the reclaim-path rejection does not carry the
reason `"too-early-to-reclaim"` the claim names; at spender = original
owner = 1, lock height 5, context height 5 the evaluator records the
reason string `"too-early-to-claim-err"` (reused from the `CLAIM_LOCK`
branch, while the adjacent log message speaks of reclaiming). -/
theorem C8_reclaim_reason_counterexample :
    CheckUtxoCondition true 5 hf0 1 1 inp0 (.RECLAIM_LOCK 5)
      = .retFalse "too-early-to-claim-err"
    ∧ CheckUtxoCondition true 5 hf0 1 1 inp0 (.RECLAIM_LOCK 5)
      ≠ .retFalse "too-early-to-reclaim" := by
  refine ⟨by decide, by decide⟩

/-- C8 (amended): for an input consuming a `RECLAIM_LOCK`-locked output,
when the spender equals the original output owner the evaluator accepts
iff `lockHeight ≠ 0 ∧ ctxHeight > lockHeight` and otherwise rejects with
the reason string `"too-early-to-claim-err"`; when the spender differs
from the original owner the condition never causes a rejection. -/
theorem C8_reclaimlock_semantics (ctxH lockH prevUid uid : Nat)
    (hf : String → Nat → Nat) (inp : CUtxoInput) :
    (prevUid = uid →
      ((CheckUtxoCondition true ctxH hf prevUid uid inp (.RECLAIM_LOCK lockH) = .fallOff
          ↔ (lockH ≠ 0 ∧ lockH < ctxH))
        ∧ (CheckUtxoCondition true ctxH hf prevUid uid inp (.RECLAIM_LOCK lockH)
            = .retFalse "too-early-to-claim-err" ↔ (lockH = 0 ∨ ctxH ≤ lockH))))
    ∧ (prevUid ≠ uid →
        CheckUtxoCondition true ctxH hf prevUid uid inp (.RECLAIM_LOCK lockH) = .fallOff) := by
  unfold CheckUtxoCondition
  constructor
  · intro h
    subst h
    by_cases h2 : lockH = 0 ∨ ctxH ≤ lockH <;> simp [h2] <;> omega
  · intro h
    simp [h]

/-- C8 witness: the amended theorem applied at the owner reclaiming one
block after a height-5 lock (accept) and at a different spender facing the
same lock (not constrained). -/
theorem C8_reclaimlock_semantics_witness :
    (CheckUtxoCondition true 6 hf0 1 1 inp0 (.RECLAIM_LOCK 5) = .fallOff
      ↔ ((5 : Nat) ≠ 0 ∧ 5 < 6))
    ∧ CheckUtxoCondition true 6 hf0 2 1 inp0 (.RECLAIM_LOCK 5) = .fallOff :=
  ⟨((C8_reclaimlock_semantics 6 5 1 1 hf0 inp0).1 rfl).1,
   (C8_reclaimlock_semantics 6 5 2 1 hf0 inp0).2 (by decide)⟩

/-! ## Claim C10 — the evaluator's accept paths never return -/

/-- C10: the claim that every control path of `CheckUtxoCondition` ends in
an explicit `return` is false of the source — every accepting path exits
the `switch` via `break` and reaches the end of the non-void function with
no `return` statement, so its boolean result is undefined.  Each conjunct
exhibits one such path: matching `P2SA` input, the unverified `P2MA`
input, a matching `P2PH` proof, a matured `CLAIM_LOCK`, a `RECLAIM_LOCK`
met by a non-owner spender, and a well-formed `P2SA` output. -/
theorem C10_accept_paths_fall_off :
    CheckUtxoCondition true 10 hf0 9 1 inp0 (.P2SA 1) = .fallOff
    ∧ CheckUtxoCondition true 10 hf0 9 1 inp0 (.P2MA 1) = .fallOff
    ∧ CheckUtxoCondition true 10 hfLen 9 1 ⟨0, 0, [.P2PH "abc"]⟩ (.P2PH 4) = .fallOff
    ∧ CheckUtxoCondition true 10 hf0 9 1 inp0 (.CLAIM_LOCK 5) = .fallOff
    ∧ CheckUtxoCondition true 10 hf0 2 1 inp0 (.RECLAIM_LOCK 5) = .fallOff
    ∧ CheckUtxoCondition false 10 hf0 0 1 inp0 (.P2SA 1) = .fallOff := by
  refine ⟨?_, ?_, ?_, ?_, ?_, ?_⟩ <;> decide

/-! ## CheckTx fixtures -/

/-- An environment in which every external collaborator succeeds: tx index
enabled, all preliminary checks pass, zero minimum fee, valid signature,
and all cache writes succeed.  The chain store is the parameter. -/
def okEnv (chain : Nat → Option CCoinUtxoTx) : ChainEnv :=
  { height := 10
    isTxIndex := true
    chainRead := chain
    hashWithUid := hf0
    preChecksOk := true
    txUidIsPubKey := false
    pubKeyValid := true
    minFee := some 0
    sigValid := true
    genRegIdOk := true
    delUtxoOk := fun _ => true
    setUtxoOk := fun _ => true
    saveAccountOk := true
    setReceiptsOk := true }

/-! ## Claim C1 — CheckTx discards the condition verdicts -/

/-- A prior transaction whose only output is locked to uid 7. -/
def prevTxC1 : CCoinUtxoTx := ⟨42, 9, 0, [], [⟨500, [.P2SA 7]⟩]⟩

/-- A chain store containing only `prevTxC1` under id 42. -/
def chainC1 : Nat → Option CCoinUtxoTx :=
  fun t => if t = 42 then some prevTxC1 else none

def envC1 : ChainEnv := okEnv chainC1

/-- A transaction from uid 5 spending the output locked to uid 7. -/
def txC1 : CCoinUtxoTx := ⟨99, 5, 0, [⟨42, 0, []⟩], []⟩

def stC1 : LedgerState :=
  ⟨[(42, 0)], fun u => if u = 5 then some 1000 else none, []⟩

/-- C1: validation does not abort on a rejecting locking condition — the
source computes the per-condition verdict and discards it.  Sender uid 5
spends an output locked to uid 7: the evaluator rejects the pair with
`"uid-mismatches-err"`, yet `CheckTx` accepts the transaction. -/
theorem C1_checktx_accepts_despite_condition_rejection :
    CheckTx envC1 txC1 stC1 = .ok
    ∧ CheckUtxoCondition true envC1.height envC1.hashWithUid prevTxC1.txUid
        txC1.txUid ⟨42, 0, []⟩ (.P2SA 7) = .retFalse "uid-mismatches-err" := by
  refine ⟨by decide, by decide⟩

/-! ## Claim C4 — prior-output resolution on an index miss -/

/-- An environment with the tx index enabled over an empty chain store. -/
def envC4e : ChainEnv := okEnv (fun _ => none)

/-- The same environment with the tx index disabled. -/
def envC4d : ChainEnv := { okEnv (fun _ => none) with isTxIndex := false }

/-- A transaction referencing prior transaction 42, which no store holds. -/
def txC4 : CCoinUtxoTx := ⟨99, 5, 0, [⟨42, 0, []⟩], []⟩

def stC4 : LedgerState :=
  ⟨[], fun u => if u = 5 then some 1000 else none, []⟩

/-- C4: with the tx index disabled, resolution fails fast and `CheckTx`
rejects (this half of the claim holds); but with the index enabled and the
referenced id absent, `GetUtxoTxFromChain` still returns `true` with the
prior transaction unloaded, and `CheckTx` proceeds to dereference the
unloaded pointer (undefined behavior) instead of rejecting the input. -/
theorem C4_resolver_reports_success_on_index_miss :
    GetUtxoTxFromChain envC4d 42 = (false, none)
    ∧ CheckTx envC4d txC4 stC4 = .dos "failed-to-load-prev-utxo-err"
    ∧ GetUtxoTxFromChain envC4e 42 = (true, none)
    ∧ CheckTx envC4e txC4 stC4 = .nullDeref := by
  refine ⟨by decide, by decide, by decide, by decide⟩

/-! ## Claim C9 — structural size limits -/

/-- Every early return of the `CheckTx` input loop is the
failed-to-load rejection, the null dereference, or the index
out-of-range rejection. -/
theorem checkInputs_inl_reasons (env : ChainEnv) (txUid : Nat)
    (ins : List CUtxoInput) :
    ∀ (acc : Nat) (r : CheckResult), checkInputs env txUid ins acc = .inl r →
      r = .dos "failed-to-load-prev-utxo-err" ∨ r = .nullDeref
        ∨ r = .dos "prev-utxo-index-OOR-err" := by
  induction ins with
  | nil =>
    intro acc r h
    simp [checkInputs] at h
  | cons input rest ih =>
    intro acc r h
    simp only [checkInputs] at h
    split at h
    · simp only [Sum.inl.injEq] at h
      subst h
      simp
    · simp only [Sum.inl.injEq] at h
      subst h
      simp
    · split at h
      · simp only [Sum.inl.injEq] at h
        subst h
        simp
      · exact ih _ _ h

/-- Every early return of the `CheckTx` output loop is the zero-amount
rejection. -/
theorem checkOutputs_inl_reasons (env : ChainEnv) (txUid : Nat)
    (outs : List CUtxoOutput) :
    ∀ (acc : Nat) (r : CheckResult), checkOutputs env txUid outs acc = .inl r →
      r = .dos "zero-output-amount-err" := by
  induction outs with
  | nil =>
    intro acc r h
    simp [checkOutputs] at h
  | cons output rest ih =>
    intro acc r h
    simp only [checkOutputs] at h
    split at h
    · simp only [Sum.inl.injEq] at h
      subst h
      rfl
    · exact ih _ _ h


/-- Any `state.DoS` rejection `CheckTx` produces for a transaction whose
input and output counts are within the limits and not both zero carries
one of the non-size reason codes. -/
theorem checkTx_dos_reasons (env : ChainEnv) (tx : CCoinUtxoTx)
    (st : LedgerState) (hin : tx.vins.length ≤ 100)
    (hout : tx.vouts.length ≤ 100)
    (hpos : 0 < tx.vins.length + tx.vouts.length) :
    ∀ s, CheckTx env tx st = .dos s →
      s = "bad-publickey" ∨ s = "bad-getaccount" ∨ s = "bad-tx-fee-toosmall"
      ∨ s = "failed-to-load-prev-utxo-err" ∨ s = "prev-utxo-index-OOR-err"
      ∨ s = "zero-output-amount-err"
      ∨ s = "insufficient-account-coin-amount" := by
  intro s h
  have hni : ¬ tx.vins.length > 100 := by omega
  have hno : ¬ tx.vouts.length > 100 := by omega
  have hne : ¬ (tx.vins.length = 0 ∧ tx.vouts.length = 0) := by omega
  unfold CheckTx at h
  simp only [if_neg hni, if_neg hno, if_neg hne] at h
  split at h
  · exact absurd h (by simp)
  split at h
  · simp only [CheckResult.dos.injEq] at h
    subst h
    simp
  split at h
  · simp only [CheckResult.dos.injEq] at h
    subst h
    simp
  · split at h
    · exact absurd h (by simp)
    split at h
    · simp only [CheckResult.dos.injEq] at h
      subst h
      simp
    split at h
    · rename_i r hr
      rcases checkInputs_inl_reasons _ _ _ _ _ hr with h2 | h2 | h2 <;>
        subst h2 <;>
        first
          | (simp only [CheckResult.dos.injEq] at h
             subst h
             simp)
          | exact absurd h (by simp)
    split at h
    · rename_i r hr
      have h2 := checkOutputs_inl_reasons _ _ _ _ _ hr
      subst h2
      simp only [CheckResult.dos.injEq] at h
      subst h
      simp
    split at h
    · simp only [CheckResult.dos.injEq] at h
      subst h
      simp
    split at h
    · exact absurd h (by simp)
    · exact absurd h (by simp)

/-- C9: with the preliminary checks passing (macro checks ok, sender not a
raw public key, sender account present), `CheckTx` rejects an empty
transaction with `"utxo-empty-err"`, rejects more than 100 inputs with
`"vins-size-too-large"`, rejects more than 100 outputs with
`"vouts-size-too-large"`, and a transaction within the limits (and not
both empty) is never rejected by any of the three size checks. -/
theorem C9_size_limits (env : ChainEnv) (tx : CCoinUtxoTx) (st : LedgerState)
    (bal : Nat) (hpre : env.preChecksOk = true)
    (hpk : env.txUidIsPubKey = false)
    (hacc : st.accounts tx.txUid = some bal) :
    ((tx.vins.length = 0 ∧ tx.vouts.length = 0) →
      CheckTx env tx st = .dos "utxo-empty-err")
    ∧ (100 < tx.vins.length → CheckTx env tx st = .dos "vins-size-too-large")
    ∧ ((tx.vins.length ≤ 100 ∧ 100 < tx.vouts.length) →
        CheckTx env tx st = .dos "vouts-size-too-large")
    ∧ ((tx.vins.length ≤ 100 ∧ tx.vouts.length ≤ 100
          ∧ 0 < tx.vins.length + tx.vouts.length) →
        CheckTx env tx st ≠ .dos "utxo-empty-err"
        ∧ CheckTx env tx st ≠ .dos "vins-size-too-large"
        ∧ CheckTx env tx st ≠ .dos "vouts-size-too-large") := by
  refine ⟨?_, ?_, ?_, ?_⟩
  · rintro ⟨h1, h2⟩
    unfold CheckTx
    simp [hpre, hpk, hacc, h1, h2]
  · intro h1
    unfold CheckTx
    simp [hpre, hpk, hacc, h1]
  · rintro ⟨h1, h2⟩
    have hni : ¬ tx.vins.length > 100 := by omega
    unfold CheckTx
    simp [hpre, hpk, hacc, hni, h2]
  · rintro ⟨h1, h2, h3⟩
    refine ⟨?_, ?_, ?_⟩ <;> intro hc <;>
      rcases checkTx_dos_reasons env tx st h1 h2 h3 _ hc with h | h | h | h | h | h | h <;>
      exact absurd h (by decide)

/-- An environment over the empty chain store with every collaborator
succeeding, for the size-limit witness. -/
def envC9 : ChainEnv := okEnv (fun _ => none)

def stC9 : LedgerState := ⟨[], fun u => if u = 5 then some 1000 else none, []⟩

/-- An empty transaction: no inputs, no outputs. -/
def txC9a : CCoinUtxoTx := ⟨99, 5, 0, [], []⟩

/-- A transaction with one output, within all size limits. -/
def txC9b : CCoinUtxoTx := ⟨99, 5, 0, [], [⟨10, [.P2SA 7]⟩]⟩

/-- C9 witness: the size-limit theorem applied at an empty transaction
(rejected with the empty-utxo reason) and at a one-output transaction
(not rejected by the empty-utxo check). -/
theorem C9_size_limits_witness :
    CheckTx envC9 txC9a stC9 = .dos "utxo-empty-err"
    ∧ CheckTx envC9 txC9b stC9 ≠ .dos "utxo-empty-err" := by
  refine ⟨(C9_size_limits envC9 txC9a stC9 1000 rfl rfl (by decide)).1 ⟨rfl, rfl⟩,
    ((C9_size_limits envC9 txC9b stC9 1000 rfl rfl (by decide)).2.2.2
      ⟨by decide, by decide, by decide⟩).1⟩

/-! ## ExecuteTx structural lemmas -/

/-- The persistence tail never touches the UTXO index. -/
theorem execTail_utxoIndex (env : ChainEnv) (tx : CCoinUtxoTx)
    (st1 : LedgerState) (b m : Nat) :
    (execTail env tx st1 b m).2.utxoIndex = st1.utxoIndex := by
  unfold execTail
  split
  · split <;> rfl
  · rfl

/-- A successful persistence tail stores the new balance under the
sender's uid. -/
theorem execTail_ok_accounts (env : ChainEnv) (tx : CCoinUtxoTx)
    (st1 : LedgerState) (b m : Nat) (r : ExecResult) (st2 : LedgerState)
    (hE : execTail env tx st1 b m = (r, st2)) (hok : r = .ok) :
    st2.accounts tx.txUid = some b := by
  subst hok
  unfold execTail at hE
  split at hE
  · split at hE
    · have h2 : ({ st1 with
          accounts := fun u => if u = tx.txUid then some b else st1.accounts u,
          receipts := st1.receipts ++ [(tx.txid, tx.txUid, m)] } : LedgerState)
          = st2 := congrArg Prod.snd hE
      rw [← h2]
      simp
    · simp at hE
  · simp at hE

/-- The balance stage never touches the UTXO index. -/
theorem execBalanceStage_utxoIndex (env : ChainEnv) (tx : CCoinUtxoTx)
    (st1 : LedgerState) (b tin tout : Nat) :
    (execBalanceStage env tx st1 b tin tout).2.utxoIndex = st1.utxoIndex := by
  unfold execBalanceStage
  split
  · rfl
  split
  · split
    · rfl
    · exact execTail_utxoIndex env tx st1 _ _
  split
  · exact execTail_utxoIndex env tx st1 _ _
  · exact execTail_utxoIndex env tx st1 _ _

/-- Pairwise form of `execBalanceStage_utxoIndex`. -/
theorem execBalanceStage_snd_utxoIndex (env : ChainEnv) (tx : CCoinUtxoTx)
    (st1 : LedgerState) (b tin tout : Nat) (r : ExecResult) (st2 : LedgerState)
    (hE : execBalanceStage env tx st1 b tin tout = (r, st2)) :
    st2.utxoIndex = st1.utxoIndex := by
  have h2 : (execBalanceStage env tx st1 b tin tout).2 = st2 := by rw [hE]
  rw [← h2]
  exact execBalanceStage_utxoIndex env tx st1 b tin tout

/-- A successful balance stage leaves the sender's account present in the
account cache. -/
theorem execBalanceStage_ok_accounts (env : ChainEnv) (tx : CCoinUtxoTx)
    (st1 : LedgerState) (b tin tout : Nat) (r : ExecResult) (st2 : LedgerState)
    (hE : execBalanceStage env tx st1 b tin tout = (r, st2)) (hok : r = .ok) :
    ∃ b2, st2.accounts tx.txUid = some b2 := by
  subst hok
  unfold execBalanceStage at hE
  split at hE
  · simp at hE
  split at hE
  · split at hE
    · simp at hE
    · exact ⟨_, execTail_ok_accounts _ _ _ _ _ _ _ hE rfl⟩
  split at hE
  · exact ⟨_, execTail_ok_accounts _ _ _ _ _ _ _ hE rfl⟩
  · exact ⟨_, execTail_ok_accounts _ _ _ _ _ _ _ hE rfl⟩

/-- A resolver call that reported success with a loaded transaction really
read it from the chain store. -/
theorem getUtxoTx_some_chainRead (env : ChainEnv) (txid : Nat)
    (t : CCoinUtxoTx) (h : GetUtxoTxFromChain env txid = (true, some t)) :
    env.chainRead txid = some t := by
  unfold GetUtxoTxFromChain at h
  split at h
  · simp at h
  · split at h
    · rename_i t2 heq
      simp only [Prod.mk.injEq, Option.some.injEq] at h
      rw [heq, h.2]
    · simp at h

/-- An early return of the `ExecuteTx` input loop never carries the `ok`
result. -/
theorem execInputs_inl_not_ok (env : ChainEnv) (ins : List CUtxoInput) :
    ∀ idx acc r idx1, execInputs env ins idx acc = .inl (r, idx1) → r ≠ .ok := by
  induction ins with
  | nil =>
    intro idx acc r idx1 h
    simp [execInputs] at h
  | cons input rest ih =>
    intro idx acc r idx1 h
    simp only [execInputs] at h
    split at h
    · split at h
      · simp only [Sum.inl.injEq, Prod.mk.injEq] at h
        obtain ⟨h1, -⟩ := h
        subst h1
        simp
      · simp only [Sum.inl.injEq, Prod.mk.injEq] at h
        obtain ⟨h1, -⟩ := h
        subst h1
        simp
      · split at h
        · split at h
          · exact ih _ _ _ _ h
          · simp only [Sum.inl.injEq, Prod.mk.injEq] at h
            obtain ⟨h1, -⟩ := h
            subst h1
            simp
        · simp only [Sum.inl.injEq, Prod.mk.injEq] at h
          obtain ⟨h1, -⟩ := h
          subst h1
          simp
    · simp only [Sum.inl.injEq, Prod.mk.injEq] at h
      obtain ⟨h1, -⟩ := h
      subst h1
      simp

/-- The input loop only ever deletes: the index it returns is contained in
the index it started from. -/
theorem execInputs_subset (env : ChainEnv) (ins : List CUtxoInput) :
    ∀ idx acc idx1 tot, execInputs env ins idx acc = .inr (idx1, tot) →
      ∀ k, k ∈ idx1 → k ∈ idx := by
  induction ins with
  | nil =>
    intro idx acc idx1 tot h k hk
    simp only [execInputs, Sum.inr.injEq, Prod.mk.injEq] at h
    obtain ⟨h1, -⟩ := h
    subst h1
    exact hk
  | cons input rest ih =>
    intro idx acc idx1 tot h k hk
    simp only [execInputs] at h
    split at h
    · split at h
      · simp at h
      · simp at h
      · split at h
        · split at h
          · exact (List.mem_filter.mp (ih _ _ _ _ h k hk)).1
          · simp at h
        · simp at h
    · simp at h

/-- After a completed input loop, every processed input's key is absent
from the returned index. -/
theorem execInputs_deleted (env : ChainEnv) (ins : List CUtxoInput) :
    ∀ idx acc idx1 tot, execInputs env ins idx acc = .inr (idx1, tot) →
      ∀ inp ∈ ins, (inp.prev_utxo_txid, inp.prev_utxo_out_index) ∉ idx1 := by
  induction ins with
  | nil =>
    intro idx acc idx1 tot h inp hinp
    simp at hinp
  | cons input rest ih =>
    intro idx acc idx1 tot h inp hinp
    simp only [execInputs] at h
    split at h
    · split at h
      · simp at h
      · simp at h
      · split at h
        · split at h
          · rcases List.mem_cons.mp hinp with rfl | hmem
            · intro hk
              have hsub := execInputs_subset env rest _ _ _ _ h _ hk
              have hdec := (List.mem_filter.mp hsub).2
              simp at hdec
            · exact ih _ _ _ _ h inp hmem
          · simp at h
        · simp at h
    · simp at h

/-- Every input a completed input loop processed was resolvable in the
chain store. -/
theorem execInputs_chainRead (env : ChainEnv) (ins : List CUtxoInput) :
    ∀ idx acc idx1 tot, execInputs env ins idx acc = .inr (idx1, tot) →
      ∀ inp ∈ ins, ∃ t, env.chainRead inp.prev_utxo_txid = some t := by
  induction ins with
  | nil =>
    intro idx acc idx1 tot h inp hinp
    simp at hinp
  | cons input rest ih =>
    intro idx acc idx1 tot h inp hinp
    simp only [execInputs] at h
    split at h
    · split at h
      · simp at h
      · simp at h
      · rename_i prevTx heq
        split at h
        · split at h
          · rcases List.mem_cons.mp hinp with rfl | hmem
            · exact ⟨prevTx, getUtxoTx_some_chainRead env _ _ heq⟩
            · exact ih _ _ _ _ h inp hmem
          · simp at h
        · simp at h
    · simp at h

/-- The output loop only ever inserts keys of the executing transaction:
membership of every other key is preserved, and starting members stay. -/
theorem execOutputs_mem (env : ChainEnv) (txid : Nat)
    (outs : List CUtxoOutput) :
    ∀ i idx acc idx2 tot, execOutputs env txid outs i idx acc = .inr (idx2, tot) →
      ∀ k : UtxoKey, (k ∈ idx → k ∈ idx2) ∧ (k.1 ≠ txid → k ∈ idx2 → k ∈ idx) := by
  induction outs with
  | nil =>
    intro i idx acc idx2 tot h k
    simp only [execOutputs, Sum.inr.injEq, Prod.mk.injEq] at h
    obtain ⟨h1, -⟩ := h
    subst h1
    exact ⟨fun hk => hk, fun _ hk => hk⟩
  | cons output rest ih =>
    intro i idx acc idx2 tot h k
    simp only [execOutputs] at h
    split at h
    · refine ⟨fun hk => (ih _ _ _ _ _ h k).1 (List.mem_cons_of_mem _ hk), ?_⟩
      intro hne hk
      rcases List.mem_cons.mp ((ih _ _ _ _ _ h k).2 hne hk) with rfl | hmem
      · exact absurd rfl hne
      · exact hmem
    · simp at h

/-- After a completed output loop starting at position `i`, every key
`(txid, j)` with `i ≤ j < i + outs.length` is present in the returned
index. -/
theorem execOutputs_present (env : ChainEnv) (txid : Nat)
    (outs : List CUtxoOutput) :
    ∀ i idx acc idx2 tot, execOutputs env txid outs i idx acc = .inr (idx2, tot) →
      ∀ j, i ≤ j → j < i + outs.length → (txid, j) ∈ idx2 := by
  induction outs with
  | nil =>
    intro i idx acc idx2 tot h j h1 h2
    exact absurd (by simpa using h2) (Nat.not_lt.mpr h1)
  | cons output rest ih =>
    intro i idx acc idx2 tot h j h1 h2
    simp only [execOutputs] at h
    split at h
    · rcases Nat.eq_or_lt_of_le h1 with rfl | hlt
      · exact (execOutputs_mem env txid rest _ _ _ _ _ h (txid, i)).1
          (List.mem_cons_self _ _)
      · have h2a : j < (i + 1) + rest.length := by
          simp only [List.length_cons] at h2
          omega
        exact ih _ _ _ _ _ h j hlt h2a
    · simp at h

/-- An early return of the `ExecuteTx` output loop never carries the `ok`
result. -/
theorem execOutputs_inl_not_ok (env : ChainEnv) (txid : Nat)
    (outs : List CUtxoOutput) :
    ∀ i idx acc r idx2, execOutputs env txid outs i idx acc = .inl (r, idx2) →
      r ≠ .ok := by
  induction outs with
  | nil =>
    intro i idx acc r idx2 h
    simp [execOutputs] at h
  | cons output rest ih =>
    intro i idx acc r idx2 h
    simp only [execOutputs] at h
    split at h
    · exact ih _ _ _ _ _ h
    · simp only [Sum.inl.injEq, Prod.mk.injEq] at h
      obtain ⟨h1, -⟩ := h
      subst h1
      simp

/-- Inversion of a successful `ExecuteTx`: `GenerateRegID` succeeded, both
loops completed, the final index is the output loop's index, and the
sender account is present afterwards. -/
theorem executeTx_ok_cases (env : ChainEnv) (tx : CCoinUtxoTx)
    (st st2 : LedgerState) (hE : ExecuteTx env tx st = (.ok, st2)) :
    env.genRegIdOk = true
    ∧ ∃ idx1 totIn idx2 totOut,
        execInputs env tx.vins st.utxoIndex 0 = .inr (idx1, totIn)
        ∧ execOutputs env tx.txid tx.vouts 0 idx1 0 = .inr (idx2, totOut)
        ∧ st2.utxoIndex = idx2
        ∧ ∃ b, st2.accounts tx.txUid = some b := by
  unfold ExecuteTx at hE
  split at hE
  · simp at hE
  · split at hE
    · simp at hE
    · rename_i hregRaw
      have hreg : env.genRegIdOk = true := by simpa using hregRaw
      split at hE
      · rename_i r0 idx1 hr
        simp only [Prod.mk.injEq] at hE
        exact absurd hE.1 (execInputs_inl_not_ok env tx.vins _ _ _ _ hr)
      · rename_i idx1 totIn hr
        split at hE
        · rename_i r0 idx2 hro
          simp only [Prod.mk.injEq] at hE
          exact absurd hE.1 (execOutputs_inl_not_ok env tx.txid tx.vouts _ _ _ _ _ hro)
        · rename_i idx2 totOut hro
          exact ⟨hreg, idx1, totIn, idx2, totOut, hr, hro,
            execBalanceStage_snd_utxoIndex env tx _ _ _ _ _ _ hE,
            execBalanceStage_ok_accounts env tx _ _ _ _ _ _ hE rfl⟩

/-! ## Claim C5 — UTXO index contents after a successful execution -/

/-- C5: after a successful execution of a transaction not already present
in the chain store (an executing transaction is new, so its id resolves to
nothing), every consumed input's key `(prev_utxo_txid,
prev_utxo_out_index)` is absent from the UTXO index and every output
position `i < |vouts|` has its key `(thisTxId, i)` present. -/
theorem C5_index_after_execution (env : ChainEnv) (tx : CCoinUtxoTx)
    (st : LedgerState) (hnew : env.chainRead tx.txid = none)
    (hok : (ExecuteTx env tx st).1 = .ok) :
    (∀ inp ∈ tx.vins,
      (inp.prev_utxo_txid, inp.prev_utxo_out_index)
        ∉ (ExecuteTx env tx st).2.utxoIndex)
    ∧ ∀ j < tx.vouts.length, (tx.txid, j) ∈ (ExecuteTx env tx st).2.utxoIndex := by
  rcases hE : ExecuteTx env tx st with ⟨r, st2⟩
  have hr : r = .ok := by
    rw [hE] at hok
    exact hok
  subst hr
  obtain ⟨-, idx1, totIn, idx2, totOut, hin, hout, hidx, -⟩ :=
    executeTx_ok_cases env tx st st2 hE
  dsimp only
  rw [hidx]
  constructor
  · intro inp hinp hk
    obtain ⟨t, ht⟩ := execInputs_chainRead env tx.vins _ _ _ _ hin inp hinp
    have hne : inp.prev_utxo_txid ≠ tx.txid := by
      intro hcontra
      rw [hcontra, hnew] at ht
      exact Option.noConfusion ht
    have hk1 := (execOutputs_mem env tx.txid tx.vouts _ _ _ _ _ hout
      (inp.prev_utxo_txid, inp.prev_utxo_out_index)).2 hne hk
    exact execInputs_deleted env tx.vins _ _ _ _ hin inp hinp hk1
  · intro j hj
    exact execOutputs_present env tx.txid tx.vouts _ _ _ _ _ hout j
      (Nat.zero_le _) (by simpa using hj)

/-- A prior transaction holding one unconditioned 500-coin output, for the
execution fixtures. -/
def prevTxE : CCoinUtxoTx := ⟨42, 5, 0, [], [⟨500, []⟩]⟩

/-- The chain store of the execution fixtures: only `prevTxE` under 42. -/
def chainE : Nat → Option CCoinUtxoTx :=
  fun t => if t = 42 then some prevTxE else none

def envE : ChainEnv := okEnv chainE

/-- A transaction consuming `(42, 0)` and minting one 100-coin output. -/
def txE : CCoinUtxoTx := ⟨99, 5, 0, [⟨42, 0, []⟩], [⟨100, []⟩]⟩

def stE : LedgerState :=
  ⟨[(42, 0)], fun u => if u = 5 then some 1000 else none, []⟩

/-- C5 witness: executing `txE` removes the consumed key `(42, 0)` and
registers the new key `(99, 0)`. -/
theorem C5_index_after_execution_witness :
    ((42, 0) ∉ (ExecuteTx envE txE stE).2.utxoIndex)
    ∧ (99, 0) ∈ (ExecuteTx envE txE stE).2.utxoIndex := by
  have h := C5_index_after_execution envE txE stE (by decide) (by decide)
  exact ⟨h.1 ⟨42, 0, []⟩ (by decide), h.2 0 (by decide)⟩

/-! ## Claim C6 — re-submission is a double spend -/

/-- C6: a transaction with at least one input that has already executed
successfully fails on re-submission with the double-spend rejection at its
first input, and the second attempt leaves the ledger state exactly as it
was (the rejection occurs before any mutation). -/
theorem C6_resubmission_double_spend (env : ChainEnv) (tx : CCoinUtxoTx)
    (st : LedgerState) (firstInp : CUtxoInput) (restInps : List CUtxoInput)
    (hvins : tx.vins = firstInp :: restInps)
    (hnew : env.chainRead tx.txid = none)
    (hok : (ExecuteTx env tx st).1 = .ok) :
    ExecuteTx env tx (ExecuteTx env tx st).2
      = (.dos "double-spend-prev-utxo-err", (ExecuteTx env tx st).2) := by
  rcases hE : ExecuteTx env tx st with ⟨r, st2⟩
  have hr : r = .ok := by
    rw [hE] at hok
    exact hok
  subst hr
  obtain ⟨hreg, idx1, totIn, idx2, totOut, hin, hout, hidx, b, hacc2⟩ :=
    executeTx_ok_cases env tx st st2 hE
  dsimp only
  -- the first input's key is no longer in the index
  have hmem : firstInp ∈ tx.vins := by
    rw [hvins]
    exact List.mem_cons_self _ _
  obtain ⟨t, ht⟩ := execInputs_chainRead env tx.vins _ _ _ _ hin firstInp hmem
  have hne : firstInp.prev_utxo_txid ≠ tx.txid := by
    intro hcontra
    rw [hcontra, hnew] at ht
    exact Option.noConfusion ht
  have hgone1 := execInputs_deleted env tx.vins _ _ _ _ hin firstInp hmem
  have hgone :
      (firstInp.prev_utxo_txid, firstInp.prev_utxo_out_index) ∉ st2.utxoIndex := by
    rw [hidx]
    intro hk
    exact hgone1 ((execOutputs_mem env tx.txid tx.vouts _ _ _ _ _ hout
      (firstInp.prev_utxo_txid, firstInp.prev_utxo_out_index)).2 hne hk)
  -- the re-run hits the double-spend check on the first input
  unfold ExecuteTx
  rw [hacc2]
  simp only [hreg, Bool.not_true, Bool.false_eq_true, if_false]
  rw [hvins]
  simp only [execInputs, if_neg hgone]

/-- C6 witness: `txE` executes successfully once; submitting it again
against the resulting state is rejected as a double spend with the state
unchanged. -/
theorem C6_resubmission_double_spend_witness :
    ExecuteTx envE txE (ExecuteTx envE txE stE).2
      = (.dos "double-spend-prev-utxo-err", (ExecuteTx envE txE stE).2) :=
  C6_resubmission_double_spend envE txE stE ⟨42, 0, []⟩ [] rfl (by decide) (by decide)

/-! ## Claim C2 — the balance equation and the narrowed diff -/

/-- A prior transaction holding one output of `2 ^ 32` coins. -/
def prevTxC2 : CCoinUtxoTx := ⟨42, 5, 0, [], [⟨2 ^ 32, []⟩]⟩

def envC2 : ChainEnv := okEnv (fun t => if t = 42 then some prevTxC2 else none)

/-- A transaction consuming the `2 ^ 32`-coin output, with no outputs and
zero fee. -/
def txC2 : CCoinUtxoTx := ⟨99, 5, 0, [⟨42, 0, []⟩], []⟩

def stC2 : LedgerState :=
  ⟨[(42, 0)], fun u => if u = 5 then some 0 else none, []⟩

/-- C2: the balance equation fails because `diff` is narrowed into a
32-bit `int`.  Here `totalIn = 2 ^ 32`, `totalOut = 0`, `fee = 0` and the
sender balance is `0`; the `uint64_t` difference `2 ^ 32` truncates to the
`int` value `0`, the execution succeeds with no balance mutation, and
`totalIn + balanceBefore = totalOut + fee + balanceAfter` is violated
(`2 ^ 32 + 0 ≠ 0 + 0 + 0`). -/
theorem C2_diff_truncation :
    (ExecuteTx envC2 txC2 stC2).1 = .ok
    ∧ (ExecuteTx envC2 txC2 stC2).2.accounts 5 = some 0
    ∧ diffOf txC2 (2 ^ 32) 0 = 0
    ∧ 2 ^ 32 + 0 ≠ 0 + 0 + 0 := by
  refine ⟨by decide, by decide, by decide, by decide⟩

/-! ## Claim C3 — failed executions roll back -/

/-- C3: `ExecuteTx` returns its rejections with partially applied cache
mutations; the surrounding application discards them.  `ApplyTx` (the
spec-modelled commit/rollback wrapper) leaves the ledger state exactly as
it was before the attempt whenever any step of the execution fails —
including the steps that run after UTXO index entries were already
removed. -/
theorem C3_failed_execution_rolls_back (env : ChainEnv) (tx : CCoinUtxoTx)
    (st : LedgerState) (hfail : (ExecuteTx env tx st).1 ≠ .ok) :
    ApplyTx env tx st = ((ExecuteTx env tx st).1, st) := by
  rcases hE : ExecuteTx env tx st with ⟨r, st2⟩
  rw [hE] at hfail
  unfold ApplyTx
  rw [hE]
  cases r with
  | ok => exact absurd rfl hfail
  | dos s => rfl
  | regIdFail => rfl
  | nullDeref => rfl
  | oobAccess => rfl

/-- An environment in which the receipt write fails, so execution fails
only after the UTXO index was already mutated. -/
def envC3 : ChainEnv := { okEnv chainE with setReceiptsOk := false }

/-- C3 witness: with the receipt write failing, `ExecuteTx` rejects after
having deleted the consumed key, yet `ApplyTx` returns the pre-execution
ledger state. -/
theorem C3_failed_execution_rolls_back_witness :
    (ExecuteTx envC3 txE stE).1 = .dos "set-tx-receipt-failed"
    ∧ (42, 0) ∉ (ExecuteTx envC3 txE stE).2.utxoIndex
    ∧ ApplyTx envC3 txE stE = ((ExecuteTx envC3 txE stE).1, stE) :=
  ⟨by decide, by decide,
    C3_failed_execution_rolls_back envC3 txE stE (by decide)⟩
